import Mathlib

/-!
Verification of the go.stats batching stats backend.

The repository is a stats facade (`stats.go`) plus a StatHat backend that
exists in several near-duplicate variants:

* `stathatbackend/stathatbackend.go` (first version in the file; called the
  `stathatbackend` variant below): channel-fed consumer loop `process` with a
  debounce timer, a max-batch-size dispatch, `sendBatchLog`/`sendBatch`, an
  explicit `Start`, and `Close` that does `close(e.stats); return <-e.closed`.
* `unnamed/part_003` (the `stathat` variant, package `stathat`): same loop,
  but `sendBatch` skips empty batches, `start` happens lazily via
  `sync.Once`, and `process` executes `close(e.closed)` in its shutdown
  branch before returning.
* `unnamed/part_002` (the `part002` variant): older loop with no
  max-batch-size dispatch, the flush inlined in the timer arm, and a
  `defer`red `recover` around the whole loop.

The consumer loop is embedded as a deterministic step function over an
explicit loop state, driven by a trace of scheduler choices: either the
queue delivers a stat, or the pending debounce-timer channel fires.  A
`select` arm reading from a `nil` channel can never fire in Go, so a
`timeout` input taken while no timer is pending leaves the state unchanged.
All quantities the Go code keeps in machine integers (`int` counts, batch
sizes) are modelled as `Int`; `float64` gauge values are only ever stored
and serialized, never computed with, so they are carried as `Rat`.
-/

set_option autoImplicit false

namespace GoStats

/-- A queued event: `countStat` (json fields `stat`, `count`) or `valueStat`
(json fields `stat`, `value`) from the Go sources.  The `float64` payload is
carried opaquely as `Rat`; the program never does arithmetic on it. -/
inductive Stat where
  | count (name : String) (n : Int)
  | value (name : String) (v : Rat)
deriving DecidableEq

/-- The configuration fields of `EZKey` that the consumer loop reads: the
StatHat EZ key and `MaxBatchSize` (a Go `int`). -/
structure Config where
  key : String
  maxBatchSize : Int
deriving DecidableEq

/-- One firing of the consumer's `select`: either a stat arrives on the
`e.stats` channel, or the debounce-timer channel fires. -/
inductive Input where
  | ev (s : Stat)
  | timeout
deriving DecidableEq

/-- The local state of `process`: the current `batch.Data`, the pending
debounce timer (`batchTimeout`; `some i` records the step index at which
`time.After` was called, so that "the same timer" is expressible), and the
ordered list of batches handed to `sendBatchLog` so far. -/
structure LoopState where
  batch : List Stat
  timer : Option Nat
  sent : List (List Stat)
deriving DecidableEq

/-- `process` starts with an empty batch, no pending timer
(`var batchTimeout <-chan time.Time` is nil) and nothing dispatched. -/
def initState : LoopState := ⟨[], none, []⟩

/-- One iteration of the `process` loop of the `stathatbackend` and
`stathat` variants, on input `inp`, at step index `i`.

* timer arm (`case <-batchTimeout`): only reachable when `batchTimeout` is
  non-nil (a receive from a nil channel blocks forever), and then it does
  `go e.sendBatchLog(batch); batch = fresh; batchTimeout = nil`.
* stat arm (`case stat, ok := <-e.stats`, with the channel still open):
  `batch.Data = append(batch.Data, stat)`; then
  `if batchTimeout == nil { batchTimeout = time.After(e.BatchTimeout) }`;
  then `if len(batch.Data) >= e.MaxBatchSize { go e.sendBatchLog(batch);
  batch = fresh; batchTimeout = nil }`. -/
def step (cfg : Config) (i : Nat) (st : LoopState) : Input → LoopState
  | .timeout =>
      match st.timer with
      | none => st
      | some _ => ⟨[], none, st.sent ++ [st.batch]⟩
  | .ev s =>
      let batch := st.batch ++ [s]
      let timer : Option Nat :=
        match st.timer with
        | none => some i
        | some k => some k
      if (batch.length : Int) ≥ cfg.maxBatchSize then ⟨[], none, st.sent ++ [batch]⟩
      else ⟨batch, timer, st.sent⟩

/-- Run a loop body `stepf` over a trace of select firings, threading the
step index. -/
def foldLoop (stepf : Nat → LoopState → Input → LoopState) :
    List Input → Nat → LoopState → LoopState
  | [], _, st => st
  | inp :: rest, i, st => foldLoop stepf rest (i + 1) (stepf i st inp)

/-- The state of `process` (stathatbackend/stathat variants) after the
select has fired `tr`, starting from a fresh loop. -/
def run (cfg : Config) (tr : List Input) : LoopState :=
  foldLoop (step cfg) tr 0 initState

/-- The stats delivered by the queue during a trace, in arrival order. -/
def eventsOf : List Input → List Stat
  | [] => []
  | .ev s :: r => s :: eventsOf r
  | .timeout :: r => eventsOf r

/-! ### Wire format and transport -/

/-- A JSON value, as far as `encoding/json` is exercised by this program. -/
inductive JVal where
  | null
  | str (s : String)
  | int (n : Int)
  | num (q : Rat)
  | arr (xs : List JVal)
  | obj (fields : List (String × JVal))

/-- `json.Marshal` of one event, per the struct tags: `countStat` has fields
`stat` and `count`, `valueStat` has fields `stat` and `value`. -/
def marshalStat : Stat → JVal
  | .count name n => .obj [("stat", .str name), ("count", .int n)]
  | .value name v => .obj [("stat", .str name), ("value", .num v)]

/-- `json.Marshal` of the `Data []interface` field of `apiRequest`: a nil
slice (never appended to) marshals as JSON `null`, a non-empty slice as an
array of the marshalled events. -/
def marshalData : List Stat → JVal
  | [] => .null
  | s :: rest => .arr ((s :: rest).map marshalStat)

/-- `json.Marshal` of an `apiRequest`: an object with fields `ezkey` and
`data`, in struct-field order. -/
def marshalBatch (key : String) (data : List Stat) : JVal :=
  .obj [("ezkey", .str key), ("data", marshalData data)]

/-- The fixed StatHat endpoint used by every batching variant. -/
def ezURL : String := "http://api.stathat.com/ez"

/-- An HTTP request as built by `sendBatch`. -/
structure Request where
  method : String
  url : String
  contentType : String
  body : JVal

/-- The request `sendBatch` performs for a batch: a POST of the marshalled
`apiRequest` to the fixed endpoint with Content-Type `application/json`
(`client.Post(url, "application/json", ...)` in the `stathatbackend`
variant; `http.NewRequest("POST", url, ...)` plus
`req.Header.Add("Content-Type", "application/json")` in the `stathat`
variant). -/
def mkRequest (key : String) (data : List Stat) : Request :=
  ⟨"POST", ezURL, "application/json", marshalBatch key data⟩

/-- What the transport reports back for one POST: a decoded `apiResponse`
(its `Status` and `Msg` fields), a transport-level error from performing
the request, or a failure to decode the response body. -/
inductive TResult where
  | resp (status : Int) (msg : String)
  | transportErr (m : String)
  | decodeErr (m : String)
deriving DecidableEq

/-- The error `sendBatch` returns for one POST, per its checks: a transport
error and a decode error are wrapped and returned; a decoded response with
`Status != 200` becomes an api error; a 200 response yields nil. -/
def tErr : TResult → Option String
  | .resp status msg =>
      if status = 200 then none
      else some ("stathatbackend: api error: " ++ toString status ++ " " ++ msg)
  | .transportErr m => some ("stathatbackend: " ++ m)
  | .decodeErr m => some ("stathatbackend: error decoding response: " ++ m)

/-! ### The full batch pipeline, including the shutdown flush

When the queue is closed, both batching variants run `e.sendBatchLog(batch)`
on the batch still being accumulated, so the batches handed to `sendBatch`
over a whole execution are the asynchronously dispatched ones followed by
that final one. -/

/-- All batches handed to `sendBatchLog` by an execution that fires `tr`
and then finds the queue closed. -/
def dispatchedBatches (cfg : Config) (tr : List Input) : List (List Stat) :=
  (run cfg tr).sent ++ [(run cfg tr).batch]

/-- The POST the `stathat` variant's `sendBatch` performs for one batch:
none when the batch is empty (`if len(batch.Data) == 0 { return nil }`),
otherwise the request built by `mkRequest`. -/
def stathatPostOf (key : String) (b : List Stat) : Option Request :=
  if b.isEmpty then none else some (mkRequest key b)

/-- Every POST the `stathat` variant sends over a full execution (trace,
then queue closure), in dispatch order. -/
def stathatClosePosts (cfg : Config) (tr : List Input) : List Request :=
  (dispatchedBatches cfg tr).filterMap (stathatPostOf cfg.key)

/-- Every POST the `stathatbackend` variant sends over a full execution:
its `sendBatch` has no emptiness guard, so every dispatched batch —
including an empty final one — is marshalled and POSTed. -/
def goClosePosts (cfg : Config) (tr : List Input) : List Request :=
  (dispatchedBatches cfg tr).map (mkRequest cfg.key)

/-- The flush errors logged by `sendBatchLog` over a full execution of the
`stathat` variant, given the transport's response to the n-th POST. -/
def stathatCloseLogs (cfg : Config) (oracle : Nat → TResult) (tr : List Input) :
    List String :=
  (List.range (stathatClosePosts cfg tr).length).filterMap fun n => tErr (oracle n)

/-- Everything externally observable about one full execution of the
`stathat` variant: the final loop state, the POSTs sent, and the flush
errors logged.  The results of the POSTs feed only the log: `sendBatchLog`
discards `sendBatch`'s error after logging it, and dispatch is
`go e.sendBatchLog(batch)`, so nothing flows back into the loop. -/
structure PipelineResult where
  finalState : LoopState
  posts : List Request
  logs : List String

/-- Full-execution semantics of the `stathat` variant. -/
def stathatPipeline (cfg : Config) (oracle : Nat → TResult) (tr : List Input) :
    PipelineResult :=
  ⟨run cfg tr, stathatClosePosts cfg tr, stathatCloseLogs cfg oracle tr⟩

/-! ### Shutdown and `Close` -/

/-- Receiving from a `chan error` that has been closed without anything
having been sent on it yields the zero value, i.e. a nil error. -/
def recvClosedErrChan : Option String := none

/-- The observable outcome of closing the queue and waiting in `Close`. -/
structure CloseOutcome where
  /-- The POST performed by the final, synchronous `sendBatchLog` call. -/
  finalPost : Option Request
  /-- The error of that final `sendBatch`, which `sendBatchLog` logs and
  then discards. -/
  finalErr : Option String
  /-- Whether `Close`'s `<-e.closed` can ever complete: it can only if
  `process` closes (or sends on) `e.closed` before terminating. -/
  closeReturns : Bool
  /-- The value `Close` returns when it does return. -/
  closeRet : Option String

/-- Shutdown of the `stathat` variant (`part_003`): the queue-closed branch
of `process` runs `e.sendBatchLog(batch)` (whose `sendBatch` skips an empty
batch), then `close(e.closed)`, then returns; `Close` then receives the
zero value from the closed `chan error` and returns it. -/
def stathatCloseOutcome (cfg : Config) (oracle : TResult) (st : LoopState) :
    CloseOutcome :=
  match st.batch with
  | [] => ⟨none, none, true, recvClosedErrChan⟩
  | s :: rest =>
      ⟨some (mkRequest cfg.key (s :: rest)), tErr oracle, true, recvClosedErrChan⟩

/-- Shutdown of the `stathatbackend` variant: the queue-closed branch of
`process` runs `e.sendBatchLog(batch)` (no emptiness guard in its
`sendBatch`) and then `return`s.  That `return` is the loop's only exit, so
the `close(e.closed)` written after the `for` loop is unreachable and
nothing ever closes or sends on `e.closed`; `Close`'s `return <-e.closed`
therefore blocks forever. -/
def goCloseOutcome (cfg : Config) (oracle : TResult) (st : LoopState) :
    CloseOutcome :=
  ⟨some (mkRequest cfg.key st.batch), tErr oracle, false, none⟩

/-! ### Producer and lifecycle misuse

`Count` and `Record` send on `e.stats`; `Close` closes it.  By the Go
language specification, a send on a closed channel panics, and closing an
already-closed channel panics. -/

/-- A producer or lifecycle call. -/
inductive Op where
  | countCall (name : String) (n : Int)
  | recordCall (name : String) (v : Rat)
  | closeCall
deriving DecidableEq

/-- The observable result of one such call: the channel's open flag and
queued contents afterwards, or a runtime panic. -/
inductive ExecResult where
  | ok (statsOpen : Bool) (queued : List Stat)
  | crash (msg : String)
deriving DecidableEq

/-- One call against the `e.stats` channel, given whether the channel is
still open and what it currently buffers.  `Count`/`Record` enqueue their
stat while the channel is open and panic once it is closed; `Close` closes
an open channel and panics on a closed one.  (In the `stathat` variant,
`Count`/`Record` first run `e.startOnce.Do(e.start)`, which is a no-op on a
backend that has already been started.) -/
def execOp (statsOpen : Bool) (queued : List Stat) : Op → ExecResult
  | .countCall name n =>
      if statsOpen then .ok true (queued ++ [.count name n])
      else .crash "send on closed channel"
  | .recordCall name v =>
      if statsOpen then .ok true (queued ++ [.value name v])
      else .crash "send on closed channel"
  | .closeCall =>
      if statsOpen then .ok false queued
      else .crash "close of closed channel"

/-- Whether a call ended in a runtime panic. -/
def isCrash : ExecResult → Bool
  | .ok _ _ => false
  | .crash _ => true

/-! ### Faults inside the consumer loop

Only the `part_002` variant wraps its `process` body in
`defer func() { if r := recover(); r != nil { log.Printf(...) } }()`.
A fault (panic) raised during an iteration unwinds `process`; with the
deferred `recover` the panic is caught, logged, and the goroutine exits;
without it the panic escapes the goroutine and the whole Go process dies. -/

/-- A select firing or a fault raised while handling one. -/
inductive FInput where
  | act (inp : Input)
  | fault
deriving DecidableEq

/-- How a consumer-loop execution ends under a fault trace. -/
inductive FOutcome where
  /-- Trace exhausted; the loop is still selecting. -/
  | awaiting (st : LoopState)
  /-- The deferred `recover` caught a panic: it is logged and the goroutine
  exits; the panic does not propagate. -/
  | recovered (st : LoopState) (logMsg : String)
  /-- The panic escaped the goroutine: the whole process crashes. -/
  | crashed (st : LoopState)
deriving DecidableEq

/-- One iteration of the `part_002` variant's loop: same stat arm (append,
start the timer if none is pending) but no max-batch-size check; the timer
arm flushes inline and then clears `batch.Data` and `batchTimeout`. -/
def step002 (i : Nat) (st : LoopState) : Input → LoopState
  | .timeout =>
      match st.timer with
      | none => st
      | some _ => ⟨[], none, st.sent ++ [st.batch]⟩
  | .ev s =>
      ⟨st.batch ++ [s],
       (match st.timer with
        | none => some i
        | some k => some k),
       st.sent⟩

/-- Run a loop body over a fault trace.  `hasRecover` says whether the
variant installed the deferred `recover`. -/
def runF (stepf : Nat → LoopState → Input → LoopState) (hasRecover : Bool) :
    List FInput → Nat → LoopState → FOutcome
  | [], _, st => .awaiting st
  | .act inp :: rest, i, st => runF stepf hasRecover rest (i + 1) (stepf i st inp)
  | .fault :: _, _, st =>
      if hasRecover then .recovered st "recovered in EZKey.process" else .crashed st

/-- The `part_002` variant's `process` under a fault trace: it has the
deferred `recover`. -/
def process002F (tr : List FInput) : FOutcome :=
  runF step002 true tr 0 initState

/-- The `stathatbackend`/`stathat` variants' `process` under a fault trace:
no `recover` anywhere in it. -/
def processStathatF (cfg : Config) (tr : List FInput) : FOutcome :=
  runF (step cfg) false tr 0 initState

/-- Whether the outcome is an escaped panic. -/
def isCrashedF : FOutcome → Bool
  | .awaiting _ => false
  | .recovered _ _ => false
  | .crashed _ => true

/-! ### Helper lemmas about the loop -/

theorem foldLoop_append (f : Nat → LoopState → Input → LoopState) :
    ∀ (t1 t2 : List Input) (i : Nat) (st : LoopState),
      foldLoop f (t1 ++ t2) i st = foldLoop f t2 (i + t1.length) (foldLoop f t1 i st)
  | [], t2, i, st => by simp [foldLoop]
  | inp :: rest, t2, i, st => by
      simp only [List.cons_append, foldLoop, List.length_cons]
      rw [show List.append rest t2 = rest ++ t2 from rfl,
        foldLoop_append f rest t2 (i + 1) (f i st inp)]
      congr 1
      omega

/-- The loop invariant behind claims about flushed batches: whenever a
debounce timer is pending the current batch is non-empty, and every batch
dispatched so far was non-empty. -/
def Inv (st : LoopState) : Prop :=
  (st.timer.isSome = true → st.batch ≠ []) ∧ ∀ b ∈ st.sent, b ≠ []

theorem inv_initState : Inv initState := by
  constructor
  · intro h
    simp [initState] at h
  · intro b hb
    simp [initState] at hb

theorem inv_step (cfg : Config) (i : Nat) (st : LoopState) (inp : Input)
    (h : Inv st) : Inv (step cfg i st inp) := by
  obtain ⟨h1, h2⟩ := h
  cases inp with
  | timeout =>
      cases ht : st.timer with
      | none =>
          simp only [step, ht]
          exact ⟨h1, h2⟩
      | some k =>
          refine ⟨by simp [step, ht], ?_⟩
          intro b hb
          simp only [step, ht, List.mem_append, List.mem_singleton] at hb
          rcases hb with hb | hb
          · exact h2 b hb
          · subst hb
            exact h1 (by simp [ht])
  | ev s =>
      simp only [step]
      split
      · refine ⟨by simp, ?_⟩
        intro b hb
        simp only [List.mem_append, List.mem_singleton] at hb
        rcases hb with hb | hb
        · exact h2 b hb
        · subst hb
          simp
      · exact ⟨fun _ => by simp, h2⟩

theorem inv_foldLoop (cfg : Config) :
    ∀ (tr : List Input) (i : Nat) (st : LoopState),
      Inv st → Inv (foldLoop (step cfg) tr i st)
  | [], _, _, h => h
  | inp :: rest, i, st, h =>
      inv_foldLoop cfg rest (i + 1) (step cfg i st inp) (inv_step cfg i st inp h)

theorem inv_run (cfg : Config) (tr : List Input) : Inv (run cfg tr) :=
  inv_foldLoop cfg tr 0 initState inv_initState

/-- One step neither loses nor duplicates events: the multiset-with-order
of everything dispatched plus the current batch grows exactly by the stat
the queue delivered (and not at all on a timer firing). -/
theorem flatten_step (cfg : Config) (i : Nat) (st : LoopState) (inp : Input) :
    (step cfg i st inp).sent.flatten ++ (step cfg i st inp).batch
      = st.sent.flatten ++ st.batch ++ eventsOf [inp] := by
  cases inp with
  | timeout =>
      cases ht : st.timer with
      | none => simp [step, ht, eventsOf]
      | some k => simp [step, ht, eventsOf]
  | ev s =>
      simp only [step]
      split
      · simp [eventsOf, List.append_assoc]
      · simp [eventsOf, List.append_assoc]

theorem flatten_foldLoop (cfg : Config) :
    ∀ (tr : List Input) (i : Nat) (st : LoopState),
      (foldLoop (step cfg) tr i st).sent.flatten ++ (foldLoop (step cfg) tr i st).batch
        = st.sent.flatten ++ st.batch ++ eventsOf tr
  | [], _, st => by simp [foldLoop, eventsOf]
  | inp :: rest, i, st => by
      simp only [foldLoop]
      rw [flatten_foldLoop cfg rest (i + 1) (step cfg i st inp), flatten_step]
      cases inp <;> simp [eventsOf, List.append_assoc]

/-- Events are conserved by the loop: everything dispatched plus the
pending batch is exactly the queue's arrival sequence. -/
theorem flatten_run (cfg : Config) (tr : List Input) :
    (run cfg tr).sent.flatten ++ (run cfg tr).batch = eventsOf tr := by
  have h := flatten_foldLoop cfg tr 0 initState
  simpa [run, initState] using h

/-- As long as the batch stays strictly below `MaxBatchSize`, a run of
stat arrivals only appends to the current batch, dispatches nothing, and
starts the debounce timer exactly if none was pending and at least one
stat arrived. -/
theorem foldLoop_events (cfg : Config) :
    ∀ (evs : List Stat) (b : List Stat) (t : Option Nat) (snt : List (List Stat))
      (i : Nat),
      ((b.length : Int) + evs.length < cfg.maxBatchSize) →
      foldLoop (step cfg) (evs.map Input.ev) i ⟨b, t, snt⟩
        = ⟨b ++ evs,
           (match t with
            | some k => some k
            | none => if evs.isEmpty then none else some i),
           snt⟩
  | [], b, t, snt, i, _ => by
      cases t <;> simp [foldLoop]
  | e :: rest, b, t, snt, i, h => by
      have hlen : ¬ (((b ++ [e]).length : Int) ≥ cfg.maxBatchSize) := by
        simp only [List.length_append, List.length_singleton]
        push_cast
        simp only [List.length_cons] at h
        push_cast at h
        omega
      have hrec := foldLoop_events cfg rest (b ++ [e])
        (match t with | none => some i | some k => some k) snt (i + 1)
        (by
          simp only [List.length_append, List.length_singleton]
          simp only [List.length_cons] at h
          push_cast at h ⊢
          omega)
      simp only [List.map_cons, foldLoop, step, if_neg hlen]
      rw [hrec]
      cases t <;> simp [List.append_assoc]

/-- `sendBatch` of the `stathat` variant POSTs exactly the non-empty
dispatched batches, in order. -/
theorem stathatPosts_eq (key : String) :
    ∀ l : List (List Stat),
      l.filterMap (stathatPostOf key)
        = (l.filter (fun b => !b.isEmpty)).map (mkRequest key)
  | [] => rfl
  | b :: rest => by
      cases hb : b.isEmpty <;>
        simp [stathatPostOf, hb, stathatPosts_eq key rest]

/-- A `process` with the deferred `recover` installed never lets a panic
escape, whatever the trace. -/
theorem runF_noCrash (stepf : Nat → LoopState → Input → LoopState) :
    ∀ (tr : List FInput) (i : Nat) (st : LoopState),
      isCrashedF (runF stepf true tr i st) = false
  | [], _, _ => rfl
  | .act inp :: rest, i, st => runF_noCrash stepf rest (i + 1) (stepf i st inp)
  | .fault :: _, _, _ => rfl

theorem runF_acts (stepf : Nat → LoopState → Input → LoopState) (r : Bool) :
    ∀ (pre : List Input) (rest : List FInput) (i : Nat) (st : LoopState),
      runF stepf r (pre.map FInput.act ++ rest) i st
        = runF stepf r rest (i + pre.length) (foldLoop stepf pre i st)
  | [], rest, i, st => by simp [foldLoop]
  | inp :: pre', rest, i, st => by
      simp only [List.map_cons, List.cons_append, runF, foldLoop, List.length_cons]
      rw [show List.append (pre'.map FInput.act) rest
            = pre'.map FInput.act ++ rest from rfl,
        runF_acts stepf r pre' rest (i + 1) (stepf i st inp)]
      congr 1
      omega

/-! ### The claims -/

/-- Claim C3: whenever appending an event makes the current batch reach
`MaxBatchSize`, the batch is dispatched in that same step — regardless of
the debounce timer — and accumulation continues with a fresh empty batch
that has no pending timer; a subsequent event goes into that new batch
(and, when `MaxBatchSize` is larger than one, restarts accumulation with a
fresh debounce timer rather than dispatching again). -/
theorem c3_size_dispatch (cfg : Config) (i j : Nat) (st : LoopState) (s s' : Stat)
    (h : cfg.maxBatchSize ≤ (st.batch.length : Int) + 1) :
    step cfg i st (.ev s) = ⟨[], none, st.sent ++ [st.batch ++ [s]]⟩ ∧
    ((1 : Int) < cfg.maxBatchSize →
      step cfg j ⟨[], none, st.sent ++ [st.batch ++ [s]]⟩ (.ev s')
        = ⟨[s'], some j, st.sent ++ [st.batch ++ [s]]⟩) := by
  have hc : ((st.batch ++ [s]).length : Int) ≥ cfg.maxBatchSize := by
    simp only [List.length_append, List.length_singleton]
    push_cast
    omega
  constructor
  · simp only [step, if_pos hc]
  · intro hgt
    have hc' : ¬ ((([] : List Stat) ++ [s']).length : Int) ≥ cfg.maxBatchSize := by
      simp only [List.nil_append, List.length_singleton]
      push_cast
      omega
    simp only [step, if_neg hc']
    simp

/-- Witness for C3 at a concrete input: with `MaxBatchSize = 3` and a batch
of two, a third event is dispatched at once and the next event starts a
fresh batch. -/
theorem c3_size_dispatch_witness :
    step ⟨"k", 3⟩ 5 ⟨[Stat.count "a" 1, Stat.count "b" 2], some 0, []⟩
        (.ev (Stat.count "c" 3))
      = ⟨[], none, [[Stat.count "a" 1, Stat.count "b" 2, Stat.count "c" 3]]⟩ ∧
    step ⟨"k", 3⟩ 6 ⟨[], none, [[Stat.count "a" 1, Stat.count "b" 2, Stat.count "c" 3]]⟩
        (.ev (Stat.count "d" 4))
      = ⟨[Stat.count "d" 4], some 6,
         [[Stat.count "a" 1, Stat.count "b" 2, Stat.count "c" 3]]⟩ := by
  have h := c3_size_dispatch ⟨"k", 3⟩ 5 6
    ⟨[Stat.count "a" 1, Stat.count "b" 2], some 0, []⟩
    (Stat.count "c" 3) (Stat.count "d" 4) (by decide)
  exact ⟨h.1, by simpa using h.2 (by decide)⟩

/-- Claim C5: the debounce timer is started exactly on the step that puts
the first event into a fresh batch (the code's condition `batchTimeout ==
nil`, which on reachable states coincides with the batch being empty, by
C10's invariant); it is never restarted on subsequent appends — the
pending timer keeps its original identity `k`; and any step that
dispatches a batch clears the pending timer. -/
theorem c5_timer_discipline (cfg : Config) (i : Nat) (st : LoopState) (s : Stat) :
    (st.timer = none → (st.batch.length : Int) + 1 < cfg.maxBatchSize →
      (step cfg i st (.ev s)).timer = some i) ∧
    (∀ k, st.timer = some k → (st.batch.length : Int) + 1 < cfg.maxBatchSize →
      (step cfg i st (.ev s)).timer = some k) ∧
    (∀ inp, (step cfg i st inp).sent ≠ st.sent → (step cfg i st inp).timer = none) := by
  refine ⟨?_, ?_, ?_⟩
  · intro ht hsmall
    have hc : ¬ (((st.batch ++ [s]).length : Int) ≥ cfg.maxBatchSize) := by
      simp only [List.length_append, List.length_singleton]
      push_cast
      omega
    simp only [step, ht]
    rw [if_neg hc]
  · intro k ht hsmall
    have hc : ¬ (((st.batch ++ [s]).length : Int) ≥ cfg.maxBatchSize) := by
      simp only [List.length_append, List.length_singleton]
      push_cast
      omega
    simp only [step, ht]
    rw [if_neg hc]
  · intro inp hsent
    cases inp with
    | timeout =>
        cases ht : st.timer with
        | none =>
            exfalso
            apply hsent
            simp [step, ht]
        | some k => simp [step, ht]
    | ev s' =>
        by_cases hcond : ((st.batch ++ [s']).length : Int) ≥ cfg.maxBatchSize
        · simp only [step]
          rw [if_pos hcond]
        · exfalso
          apply hsent
          simp only [step]
          rw [if_neg hcond]

/-- Witness for C5 at concrete inputs: the first append starts the timer,
a second append keeps the same timer, and a timer-expiry dispatch clears
it. -/
theorem c5_timer_discipline_witness :
    (step ⟨"k", 500⟩ 4 ⟨[], none, []⟩ (.ev (Stat.count "a" 1))).timer = some 4 ∧
    (step ⟨"k", 500⟩ 9 ⟨[Stat.count "a" 1], some 4, []⟩
        (.ev (Stat.count "b" 2))).timer = some 4 ∧
    (step ⟨"k", 500⟩ 11 ⟨[Stat.count "a" 1, Stat.count "b" 2], some 4, []⟩
        Input.timeout).timer = none := by
  refine ⟨(c5_timer_discipline ⟨"k", 500⟩ 4 ⟨[], none, []⟩
      (Stat.count "a" 1)).1 rfl (by decide),
    (c5_timer_discipline ⟨"k", 500⟩ 9 ⟨[Stat.count "a" 1], some 4, []⟩
      (Stat.count "b" 2)).2.1 4 rfl (by decide),
    (c5_timer_discipline ⟨"k", 500⟩ 11
      ⟨[Stat.count "a" 1, Stat.count "b" 2], some 4, []⟩
      (Stat.count "b" 2)).2.2 Input.timeout (by decide)⟩

/-- Claim C10: on every reachable loop state, a pending debounce timer
implies a non-empty current batch, so a timer-expiry firing always
dispatches a batch with at least one event. -/
theorem c10_pending_timer_nonempty (cfg : Config) (tr : List Input) :
    ((run cfg tr).timer.isSome = true → (run cfg tr).batch ≠ []) ∧
    (∀ i : Nat, (run cfg tr).timer.isSome = true →
      step cfg i (run cfg tr) Input.timeout
          = ⟨[], none, (run cfg tr).sent ++ [(run cfg tr).batch]⟩
        ∧ (run cfg tr).batch ≠ []) := by
  have h := inv_run cfg tr
  refine ⟨h.1, fun i hsome => ⟨?_, h.1 hsome⟩⟩
  cases ht : (run cfg tr).timer with
  | none => rw [ht] at hsome; simp at hsome
  | some k => simp [step, ht]

/-- Witness for C10: after one event the timer is pending, and its expiry
dispatches the non-empty batch. -/
theorem c10_pending_timer_nonempty_witness :
    (run ⟨"k", 500⟩ [Input.ev (Stat.count "a" 1)]).timer.isSome = true ∧
    (run ⟨"k", 500⟩ [Input.ev (Stat.count "a" 1)]).batch ≠ [] := by
  exact ⟨by decide,
    (c10_pending_timer_nonempty ⟨"k", 500⟩ [Input.ev (Stat.count "a" 1)]).1
      (by decide)⟩

/-- Claim C4: if N events (0 < N < `MaxBatchSize`) arrive from the queue
with no timer expiry in between, and then the debounce timer fires, exactly
one batch is dispatched, containing exactly those N events in arrival
order, and the loop is back to a fresh batch with no pending timer. -/
theorem c4_single_flush (cfg : Config) (evs : List Stat)
    (h0 : evs ≠ []) (h1 : (evs.length : Int) < cfg.maxBatchSize) :
    run cfg (evs.map Input.ev ++ [Input.timeout]) = ⟨[], none, [evs]⟩ := by
  have hev := foldLoop_events cfg evs [] none [] 0 (by simpa using h1)
  have h0' : evs.isEmpty = false := by
    cases evs with
    | nil => exact absurd rfl h0
    | cons a l => rfl
  rw [run, foldLoop_append]
  show foldLoop (step cfg) [Input.timeout] _
      (foldLoop (step cfg) (evs.map Input.ev) 0 ⟨[], none, []⟩) = _
  rw [hev]
  simp only [h0']
  simp [foldLoop, step]

/-- Witness for C4 at a concrete input: two events then the timer firing
yield exactly one dispatched batch holding both events in order. -/
theorem c4_single_flush_witness :
    run ⟨"k", 500⟩
        ([Stat.count "a" 1, Stat.value "b" (3 / 2)].map Input.ev ++ [Input.timeout])
      = ⟨[], none, [[Stat.count "a" 1, Stat.value "b" (3 / 2)]]⟩ :=
  c4_single_flush ⟨"k", 500⟩ [Stat.count "a" 1, Stat.value "b" (3 / 2)]
    (by decide) (by decide)

/-- Claim C2, counterexample on the `stathatbackend` variant: its
`sendBatch` has no emptiness guard, so an execution in which no event was
ever produced still POSTs the final shutdown batch — an `apiRequest` whose
`data` field marshals to JSON `null`.  This contradicts the claim that no
flush is dispatched when no events occur and that an empty final batch is
skipped. -/
theorem c2_empty_final_flush_posted :
    eventsOf ([] : List Input) = [] ∧
    goClosePosts ⟨"k", 500⟩ []
      = [⟨"POST", ezURL, "application/json",
          JVal.obj [("ezkey", JVal.str "k"), ("data", JVal.null)]⟩] :=
  ⟨rfl, rfl⟩

/-- Claim C2, amended: in the `stathat` variant (`part_003`), whose
`sendBatch` returns early on an empty batch, a batch reaches the transport
if and only if it is non-empty: every batch dispatched asynchronously by
the loop is non-empty, a POST goes out exactly for the non-empty dispatched
batches (final one included), and no POST at all is sent if and only if no
event was ever produced.  (In the `stathatbackend` variant the final
shutdown flush lacks the guard; see the counterexample.) -/
theorem c2_flush_iff_nonempty (cfg : Config) (tr : List Input) :
    ((run cfg tr).sent.all (fun b => !b.isEmpty) = true) ∧
    (stathatClosePosts cfg tr = [] ↔ eventsOf tr = []) ∧
    (∀ b ∈ dispatchedBatches cfg tr, b ≠ [] →
      mkRequest cfg.key b ∈ stathatClosePosts cfg tr) ∧
    (∀ r ∈ stathatClosePosts cfg tr, ∃ b ∈ dispatchedBatches cfg tr,
      b ≠ [] ∧ r = mkRequest cfg.key b) := by
  have hinv := inv_run cfg tr
  have hflat := flatten_run cfg tr
  refine ⟨?_, ⟨?_, ?_⟩, ?_, ?_⟩
  · rw [List.all_eq_true]
    intro b hb
    have hb' : b ≠ [] := hinv.2 b hb
    simpa using hb'
  · intro hpost
    rw [stathatClosePosts, List.filterMap_eq_nil_iff] at hpost
    have hall : ∀ b ∈ dispatchedBatches cfg tr, b = [] := by
      intro b hb
      have := hpost b hb
      by_contra hne
      have hb' : b.isEmpty = false := by simpa using hne
      simp [stathatPostOf, hb'] at this
    have hsent : ∀ b ∈ (run cfg tr).sent, b = [] := fun b hb =>
      hall b (by simp [dispatchedBatches, hb])
    have hbatch : (run cfg tr).batch = [] :=
      hall _ (by simp [dispatchedBatches])
    rw [← hflat, hbatch, List.flatten_eq_nil_iff.mpr hsent]
    rfl
  · intro hev
    rw [← hflat] at hev
    rcases List.append_eq_nil.mp hev with ⟨hsent, hbatch⟩
    have hall : ∀ b ∈ dispatchedBatches cfg tr, b = [] := by
      intro b hb
      rcases List.mem_append.mp hb with hb | hb
      · exact List.flatten_eq_nil_iff.mp hsent b hb
      · rw [List.mem_singleton.mp hb]
        exact hbatch
    rw [stathatClosePosts, List.filterMap_eq_nil_iff]
    intro b hb
    simp [stathatPostOf, hall b hb]
  · intro b hb hne
    rw [stathatClosePosts, List.mem_filterMap]
    exact ⟨b, hb, by simp [stathatPostOf, List.isEmpty_eq_false.mpr hne]⟩
  · intro r hr
    rw [stathatClosePosts, List.mem_filterMap] at hr
    rcases hr with ⟨b, hb, hpost⟩
    refine ⟨b, hb, ?_, ?_⟩
    · intro hnil
      subst hnil
      simp [stathatPostOf] at hpost
    · by_cases hbe : b.isEmpty
      · simp [stathatPostOf, hbe] at hpost
      · simp only [stathatPostOf, Bool.not_eq_true] at hpost
        rw [if_neg hbe] at hpost
        exact (Option.some_injective _ hpost).symm

/-- Witness for C2's amended statement: with no events and a shutdown, the
`stathat` variant sends no POST at all. -/
theorem c2_flush_iff_nonempty_witness :
    stathatClosePosts ⟨"k", 500⟩ [] = [] :=
  (c2_flush_iff_nonempty ⟨"k", 500⟩ []).2.1.mpr rfl

/-- Claim C6, counterexample on the `stathatbackend` variant: the final
shutdown flush of an event-free execution POSTs a body whose `data` field
is JSON `null`, not an array of events, so not every dispatched batch is
serialized with `data` an array. -/
theorem c6_empty_final_data_null :
    ∃ r ∈ goClosePosts ⟨"k", 500⟩ [], ∀ l : List JVal,
      r.body ≠ JVal.obj [("ezkey", JVal.str "k"), ("data", JVal.arr l)] := by
  refine ⟨mkRequest "k" [], ?_, ?_⟩
  · show mkRequest "k" [] ∈ [mkRequest "k" []]
    exact List.mem_singleton.mpr rfl
  · intro l h
    simp [mkRequest, marshalBatch, marshalData] at h

/-- Claim C6, amended: every POST the `stathat` variant's transport sends —
and it is sent exactly for the non-empty dispatched batches — goes to the
fixed endpoint as a POST with Content-Type `application/json`, and its body
is the JSON object with an `ezkey` string field and a `data` array holding
the batch's events in order, each serialized per the struct tags: a count
event as an object with `stat` and `count` fields, a value event as an
object with `stat` and `value` fields.  (The `stathatbackend` variant
additionally POSTs an empty final batch with `data` null; see the
counterexample.) -/
theorem c6_wire_format (cfg : Config) (tr : List Input) :
    ∀ r ∈ stathatClosePosts cfg tr,
      r.method = "POST" ∧ r.url = ezURL ∧ r.contentType = "application/json" ∧
      ∃ b ∈ dispatchedBatches cfg tr, b ≠ [] ∧
        r.body = JVal.obj [("ezkey", JVal.str cfg.key),
          ("data", JVal.arr (b.map marshalStat))] ∧
        ∀ st ∈ b,
          marshalStat st = (match st with
            | .count name n => JVal.obj [("stat", JVal.str name), ("count", JVal.int n)]
            | .value name v => JVal.obj [("stat", JVal.str name), ("value", JVal.num v)]) := by
  intro r hr
  rw [stathatClosePosts, List.mem_filterMap] at hr
  rcases hr with ⟨b, hb, hpost⟩
  by_cases hbe : b.isEmpty
  · simp [stathatPostOf, hbe] at hpost
  · simp only [stathatPostOf] at hpost
    rw [if_neg hbe] at hpost
    have hr' : r = mkRequest cfg.key b := (Option.some_injective _ hpost).symm
    subst hr'
    refine ⟨rfl, rfl, rfl, b, hb, by simpa using hbe, ?_, ?_⟩
    · cases b with
      | nil => simp at hbe
      | cons s rest => rfl
    · intro st _
      cases st <;> rfl

/-- Witness for C6's amended statement at a concrete input: the single POST
of a one-event execution has the documented method, endpoint, content type
and body shape. -/
theorem c6_wire_format_witness :
    (mkRequest "k" [Stat.count "a" 1]).method = "POST" ∧
    (mkRequest "k" [Stat.count "a" 1]).url = ezURL ∧
    (mkRequest "k" [Stat.count "a" 1]).contentType = "application/json" ∧
    ∃ b ∈ dispatchedBatches ⟨"k", 500⟩ [Input.ev (Stat.count "a" 1)], b ≠ [] ∧
      (mkRequest "k" [Stat.count "a" 1]).body
        = JVal.obj [("ezkey", JVal.str "k"),
            ("data", JVal.arr (b.map marshalStat))] ∧
      ∀ st ∈ b,
        marshalStat st = (match st with
          | .count name n => JVal.obj [("stat", JVal.str name), ("count", JVal.int n)]
          | .value name v => JVal.obj [("stat", JVal.str name), ("value", JVal.num v)]) := by
  have h := c6_wire_format ⟨"k", 500⟩ [Input.ev (Stat.count "a" 1)]
    (mkRequest "k" [Stat.count "a" 1])
    (show mkRequest "k" [Stat.count "a" 1] ∈ [mkRequest "k" [Stat.count "a" 1]] from
      List.mem_singleton.mpr rfl)
  exact h

/-- Claim C7: flush failures are terminal and local to their batch.  The
loop state and the sequence of POSTs of a full `stathat` execution are
identical under any two transport behaviours (nothing the transport reports
flows back into the loop or to a producer — `go e.sendBatchLog(batch)`
discards the error after logging it); events are conserved — every event
delivered by the queue sits in exactly one dispatched batch, so a failed
batch is never retried or re-enqueued; an all-success transport logs
nothing; and there is exactly one POST attempt per non-empty dispatched
batch. -/
theorem c7_failures_isolated (cfg : Config) (tr : List Input)
    (o1 o2 : Nat → TResult) :
    (stathatPipeline cfg o1 tr).finalState = (stathatPipeline cfg o2 tr).finalState ∧
    (stathatPipeline cfg o1 tr).posts = (stathatPipeline cfg o2 tr).posts ∧
    ((stathatPipeline cfg o1 tr).finalState.sent.flatten
        ++ (stathatPipeline cfg o1 tr).finalState.batch = eventsOf tr) ∧
    (stathatPipeline cfg (fun _ => TResult.resp 200 "ok") tr).logs = [] ∧
    ((stathatPipeline cfg o1 tr).posts.length
      = ((dispatchedBatches cfg tr).filter (fun b => !b.isEmpty)).length) := by
  refine ⟨rfl, rfl, flatten_run cfg tr, ?_, ?_⟩
  · simp [stathatPipeline, stathatCloseLogs, tErr]
  · show (stathatClosePosts cfg tr).length = _
    rw [stathatClosePosts, stathatPosts_eq, List.length_map]

/-- Claim C9: misuse of the lifecycle fails loudly.  Closing an open
backend closes the event channel without touching the queued events, and
after that every producer call (`Count`, `Record`) and every further
`Close` ends in a runtime panic — `e.stats <- ...` on a closed channel and
`close(e.stats)` on a closed channel both panic in Go — never in a silent
success or an altered queue. -/
theorem c9_misuse_fails_loudly :
    (∀ q : List Stat, execOp true q Op.closeCall = ExecResult.ok false q) ∧
    (∀ (op : Op) (q : List Stat), isCrash (execOp false q op) = true) := by
  refine ⟨fun q => rfl, fun op q => ?_⟩
  cases op <;> rfl

/-- Claim C1: the code contradicts the claim.  In the `stathatbackend`
variant, `process`'s only exit path returns without closing `e.closed`
(the `close(e.closed)` after the loop is unreachable), so `Close`'s
`return <-e.closed` can never complete.  In the `stathat` variant `Close`
does return, but `process` merely closes the `chan error` without sending
the final flush's error on it, so `Close` yields the channel's zero value
nil even when the final flush failed — concretely, shutting down with one
pending event against a transport that refuses the connection logs
`stathatbackend: connection refused` yet `Close` still returns nil. -/
theorem c1_close_result_lost :
    (∀ (cfg : Config) (oracle : TResult) (st : LoopState),
      (goCloseOutcome cfg oracle st).closeReturns = false) ∧
    (∀ (cfg : Config) (oracle : TResult) (st : LoopState),
      (stathatCloseOutcome cfg oracle st).closeRet = none) ∧
    ((stathatCloseOutcome ⟨"k", 500⟩ (TResult.transportErr "connection refused")
        (run ⟨"k", 500⟩ [Input.ev (Stat.count "a" 1)])).finalErr
      = some "stathatbackend: connection refused") := by
  refine ⟨fun _ _ _ => rfl, fun cfg oracle st => ?_, rfl⟩
  rcases st with ⟨b, t, snt⟩
  cases b <;> rfl

/-- Claim C8, counterexample: the consumer loops of the `stathatbackend`
and `stathat` variants (the `process` at stathatbackend.go:63 and
part_003:64) contain no `recover`, so a panic raised inside an iteration
escapes the goroutine and crashes the process instead of being recovered
and logged. -/
theorem c8_fault_escapes :
    processStathatF ⟨"k", 500⟩ [FInput.fault] = FOutcome.crashed initState ∧
    isCrashedF (processStathatF ⟨"k", 500⟩ [FInput.fault]) = true :=
  ⟨rfl, rfl⟩

/-- Claim C8, amended: only the `part_002` variant guards its consumer loop
with a deferred `recover`; under it no trace ever ends in an escaped panic,
and a fault after any prefix of select firings is caught, logged as
`recovered in EZKey.process`, and ends the consumer goroutine (the loop
does not resume).  The `stathatbackend` and `stathat` variants have no such
guard (see the counterexample). -/
theorem c8_recover_only_in_part002 :
    (∀ tr : List FInput, isCrashedF (process002F tr) = false) ∧
    (∀ (pre : List Input) (post : List FInput),
      process002F (pre.map FInput.act ++ FInput.fault :: post)
        = FOutcome.recovered (foldLoop step002 pre 0 initState)
            "recovered in EZKey.process") := by
  refine ⟨fun tr => runF_noCrash step002 tr 0 initState, fun pre post => ?_⟩
  rw [process002F, runF_acts]
  rfl

end GoStats
